import Mathlib

/-!
# Verification of the Robinhood crypto client request pipeline

Shallow embedding of the TypeScript sources:
* `src/src/services/rate-limiter.ts` (`TokenBucketRateLimiter`, `RateLimiterWithRetry`),
* the crypto helpers (`createSignatureMessage`, `base64ToUint8Array`,
  `importEd25519PrivateKey`, `sanitizeErrorMessage`),
* `HttpClient.handleRequestError`,
* `validateConfig` from `src/src/utils/mod.ts`.

JavaScript numbers are modelled by `JsNum`: a rational for every finite value
plus `inf`, `negInf` and `nan`, with the IEEE-754 special-value rules for the
operations the sources use (rounding of finite arithmetic is not modelled; all
finite arithmetic is exact rational arithmetic). Timestamps (`Date.now()`)
are finite and passed explicitly as rationals.
-/

namespace RobinhoodClient

/-- Model of a JavaScript `number`: exact rationals for finite values plus the
IEEE special values `Infinity`, `-Infinity` and `NaN`.  Signed zero is not
distinguished. -/
inductive JsNum where
  | num (q : ℚ)
  | inf
  | negInf
  | nan
deriving DecidableEq, Repr

namespace JsNum

/-- JavaScript unary negation. -/
def neg : JsNum → JsNum
  | num q => num (-q)
  | inf => negInf
  | negInf => inf
  | nan => nan

/-- JavaScript addition (`+`) on numbers. -/
def add : JsNum → JsNum → JsNum
  | nan, _ => nan
  | _, nan => nan
  | num a, num b => num (a + b)
  | num _, inf => inf
  | inf, num _ => inf
  | inf, inf => inf
  | num _, negInf => negInf
  | negInf, num _ => negInf
  | negInf, negInf => negInf
  | inf, negInf => nan
  | negInf, inf => nan

/-- JavaScript subtraction (`-`) on numbers. -/
def sub (a b : JsNum) : JsNum := add a (neg b)

/-- JavaScript multiplication (`*`) on numbers. -/
def mul : JsNum → JsNum → JsNum
  | nan, _ => nan
  | _, nan => nan
  | num a, num b => num (a * b)
  | num a, inf => if 0 < a then inf else if a < 0 then negInf else nan
  | inf, num b => if 0 < b then inf else if b < 0 then negInf else nan
  | num a, negInf => if 0 < a then negInf else if a < 0 then inf else nan
  | negInf, num b => if 0 < b then negInf else if b < 0 then inf else nan
  | inf, inf => inf
  | negInf, negInf => inf
  | inf, negInf => negInf
  | negInf, inf => negInf

/-- JavaScript division (`/`) on numbers (positive zero only: `x/0` follows
the sign of `x`, `0/0 = NaN`). -/
def div : JsNum → JsNum → JsNum
  | nan, _ => nan
  | _, nan => nan
  | num a, num b =>
      if b = 0 then (if 0 < a then inf else if a < 0 then negInf else nan)
      else num (a / b)
  | num _, inf => num 0
  | num _, negInf => num 0
  | inf, num b => if 0 ≤ b then inf else negInf
  | negInf, num b => if 0 ≤ b then negInf else inf
  | inf, inf => nan
  | inf, negInf => nan
  | negInf, inf => nan
  | negInf, negInf => nan

/-- Model of `Math.min` on two numbers: `NaN` if either argument is `NaN`. -/
def min : JsNum → JsNum → JsNum
  | nan, _ => nan
  | _, nan => nan
  | num a, num b => num (Min.min a b)
  | num a, inf => num a
  | inf, num b => num b
  | inf, inf => inf
  | negInf, _ => negInf
  | _, negInf => negInf

/-- Model of `Math.ceil`. -/
def ceil : JsNum → JsNum
  | num q => num ⌈q⌉
  | inf => inf
  | negInf => negInf
  | nan => nan

/-- JavaScript `>=` comparison: any comparison with `NaN` is `false`. -/
def ge : JsNum → JsNum → Bool
  | nan, _ => false
  | _, nan => false
  | num a, num b => decide (b ≤ a)
  | inf, _ => true
  | num _, inf => false
  | num _, negInf => true
  | negInf, negInf => true
  | negInf, _ => false

end JsNum

/-! ## Token bucket rate limiter (`src/src/services/rate-limiter.ts`) -/

/-- The `RateLimitConfig` record: all fields optional, finite JS numbers. -/
structure RateLimitConfig where
  maxRequests : Option ℚ
  windowMs : Option ℚ
  burstCapacity : Option ℚ
deriving DecidableEq, Repr

/-- State of a `TokenBucketRateLimiter` instance.  `tokens` is a `JsNum`
because the refill arithmetic can in principle produce special values;
`lastRefill`, `maxTokens` and `windowMs` are always finite in the source. -/
structure TokenBucket where
  tokens : JsNum
  lastRefill : ℚ
  maxTokens : ℚ
  refillRate : JsNum
  windowMs : ℚ
deriving DecidableEq, Repr

/-- The `TokenBucketRateLimiter` constructor: `maxTokens = burstCapacity ??
maxRequests ?? 100`, `windowMs = windowMs ?? 60000`,
`refillRate = (maxRequests ?? 100) / windowMs` (JS division, so `Infinity`
when `windowMs = 0` and `maxRequests > 0`), bucket starts full with
`lastRefill = Date.now()` (passed as `now`). -/
def mkTokenBucket (config : RateLimitConfig) (now : ℚ) : TokenBucket :=
  let maxTokens := (config.burstCapacity.getD (config.maxRequests.getD 100))
  let windowMs := config.windowMs.getD 60000
  { tokens := JsNum.num maxTokens
    lastRefill := now
    maxTokens := maxTokens
    refillRate := JsNum.div (JsNum.num (config.maxRequests.getD 100)) (JsNum.num windowMs)
    windowMs := windowMs }

/-- Method `refillTokens`: lazy refill.  `elapsed = now - lastRefill`; when positive,
adds `elapsed * refillRate` tokens capped at `maxTokens` (`Math.min`) and
advances `lastRefill` to `now`. -/
def refillTokens (now : ℚ) (b : TokenBucket) : TokenBucket :=
  let elapsed := now - b.lastRefill
  if 0 < elapsed then
    { b with
      tokens := JsNum.min (JsNum.num b.maxTokens)
        (JsNum.add b.tokens (JsNum.mul (JsNum.num elapsed) b.refillRate))
      lastRefill := now }
  else b

/-- Data carried by a thrown `RateLimitError` from `consume`: the message
interpolates `tokensAvailable` and `tokensRequired`, and `retryAfter` is the
computed wait time. -/
structure RateLimitErrorData where
  tokensAvailable : JsNum
  tokensRequired : ℚ
  retryAfter : JsNum
deriving DecidableEq, Repr

/-- Method `consume(tokens)`: refill, then deduct if `this.tokens >= tokens`,
otherwise throw `RateLimitError` with
`retryAfter = Math.ceil((tokens - this.tokens) / refillRate)`.
The returned bucket is the object state when the call returns or throws. -/
def consume (now : ℚ) (n : ℚ) (b : TokenBucket) :
    Except RateLimitErrorData Unit × TokenBucket :=
  let b := refillTokens now b
  if JsNum.ge b.tokens (JsNum.num n) then
    (Except.ok (), { b with tokens := JsNum.sub b.tokens (JsNum.num n) })
  else
    let tokensNeeded := JsNum.sub (JsNum.num n) b.tokens
    let waitTime := JsNum.ceil (JsNum.div tokensNeeded b.refillRate)
    (Except.error ⟨b.tokens, n, waitTime⟩, b)

/-- Method `canConsume(tokens)`: refill, then report whether `this.tokens >= tokens`
without deducting. -/
def canConsume (now : ℚ) (n : ℚ) (b : TokenBucket) : Bool × TokenBucket :=
  let b := refillTokens now b
  (JsNum.ge b.tokens (JsNum.num n), b)

/-- Method `getTokenCount()`: refill, then return the token count. -/
def getTokenCount (now : ℚ) (b : TokenBucket) : JsNum × TokenBucket :=
  let b := refillTokens now b
  (b.tokens, b)

/-- Method `getTimeUntilToken()`: refill, then `0` if a token is available, otherwise
`Math.ceil(1 / refillRate)`. -/
def getTimeUntilToken (now : ℚ) (b : TokenBucket) : JsNum × TokenBucket :=
  let b := refillTokens now b
  if JsNum.ge b.tokens (JsNum.num 1) then (JsNum.num 0, b)
  else (JsNum.ceil (JsNum.div (JsNum.num 1) b.refillRate), b)

/-- Method `reset()`: tokens back to capacity, `lastRefill = Date.now()`. -/
def reset (now : ℚ) (b : TokenBucket) : TokenBucket :=
  { b with tokens := JsNum.num b.maxTokens, lastRefill := now }

/-- The record returned by `getStatus()`. -/
structure BucketStatus where
  tokens : JsNum
  maxTokens : ℚ
  refillRate : JsNum
  lastRefill : ℚ
  timeUntilToken : JsNum
deriving DecidableEq, Repr

/-- Method `getStatus()`: refill, then build the status record; the
`timeUntilToken` field calls `getTimeUntilToken()` (whose inner refill at the
same instant is a no-op). -/
def getStatus (now : ℚ) (b : TokenBucket) : BucketStatus × TokenBucket :=
  let b1 := refillTokens now b
  let r := getTimeUntilToken now b1
  (⟨b1.tokens, b1.maxTokens, b1.refillRate, b1.lastRefill, r.1⟩, r.2)

/-! ## Retry wrapper (`RateLimiterWithRetry.execute`) -/

/-- Errors observable inside the retry loop: `RateLimitError`s (from the
bucket's `consume` or from the wrapped operation itself, e.g. a normalized
HTTP 429) versus every other `Error`.  `execute`'s control flow depends only
on this distinction. -/
inductive OpError where
  | rateLimit (retryAfter : Option JsNum)
  | other (msg : String)
deriving DecidableEq, Repr

/-- The test `error instanceof RateLimitError`. -/
def isRateLimitError : OpError → Bool
  | OpError.rateLimit _ => true
  | OpError.other _ => false

/-- One step semantics of the `for` loop in `RateLimiterWithRetry.execute`.
The stateful collaborators are abstracted as oracles: `gate attempt` is the
outcome of `this.rateLimiter.consume(tokens)` on loop iteration `attempt`
(`none` = admitted, `some e` = it threw `RateLimitError` `e`), and
`fn calls` is the outcome of the `calls`-th invocation of the wrapped
operation `fn`.  The result pairs the value/error of `execute` with the total
number of times `fn` was invoked.  `fuel` is `maxRetries + 1 - attempt`;
exhausting it models the loop falling through, which throws
`lastError ?? new RateLimitError('Rate limit retry failed')`. -/
def execGo {α : Type} (maxRetries : ℕ) (gate : ℕ → Option RateLimitErrorData)
    (fn : ℕ → Except OpError α) :
    ℕ → ℕ → ℕ → Option OpError → Except OpError α × ℕ
  | 0, _, calls, lastError =>
      (Except.error (lastError.getD (OpError.rateLimit none)), calls)
  | fuel + 1, attempt, calls, _ =>
      match gate attempt with
      | some rl =>
          -- consume threw RateLimitError: retry while attempts remain
          if attempt < maxRetries then
            execGo maxRetries gate fn fuel (attempt + 1) calls
              (some (OpError.rateLimit (some rl.retryAfter)))
          else
            (Except.error (OpError.rateLimit (some rl.retryAfter)), calls)
      | none =>
          match fn calls with
          | Except.ok v => (Except.ok v, calls + 1)
          | Except.error e =>
              if isRateLimitError e then
                if attempt < maxRetries then
                  execGo maxRetries gate fn fuel (attempt + 1) (calls + 1) (some e)
                else (Except.error e, calls + 1)
              else
                -- Non-rate-limit error, don't retry
                (Except.error e, calls + 1)

/-- Function `RateLimiterWithRetry.execute(fn, tokens)` driven by oracles for the gate
and the operation (see `execGo`). -/
def execute {α : Type} (maxRetries : ℕ) (gate : ℕ → Option RateLimitErrorData)
    (fn : ℕ → Except OpError α) : Except OpError α × ℕ :=
  execGo maxRetries gate fn (maxRetries + 1) 0 0 none

/-! ## String helpers shared by the crypto-helper embeddings

The JavaScript string operations used by the sources (`startsWith`,
`toUpperCase`, `toLowerCase`, `trim`, `substring`) are modelled on the
character list underlying the Lean string. -/

/-- ASCII whitespace as matched by JavaScript's `\s` class and `trim()`
(the Unicode space characters they also cover are not modelled). -/
def isJsWhitespaceChar (c : Char) : Bool :=
  c = ' ' ∨ c = '\t' ∨ c = '\n' ∨ c = '\r' ∨ c = '\x0b' ∨ c = '\x0c'

/-- JavaScript `s.startsWith(pre)`. -/
def strStartsWith (s pre : String) : Bool := pre.data.isPrefixOf s.data

/-- JavaScript `s.toUpperCase()` (ASCII, which covers every string the sources pass). -/
def strToUpper (s : String) : String := ⟨s.data.map Char.toUpper⟩

/-- JavaScript `s.toLowerCase()` (ASCII). -/
def strToLower (s : String) : String := ⟨s.data.map Char.toLower⟩

/-- JavaScript `s.trim()`: strip leading and trailing whitespace. -/
def jsTrim (s : String) : String :=
  ⟨((s.data.dropWhile isJsWhitespaceChar).reverse.dropWhile isJsWhitespaceChar).reverse⟩

/-- Substring test on strings (used to state the non-leakage claims and to
model `String.prototype.includes`). -/
def containsSubstring (hay needle : String) : Bool :=
  (List.range (hay.data.length + 1)).any fun i => needle.data.isPrefixOf (hay.data.drop i)

/-- Left-to-right, non-overlapping replacement of every occurrence of `pat`,
on character lists; `fuel` bounds the recursion by the input length. -/
def replaceAllGo (pat rep : List Char) : ℕ → List Char → List Char
  | _, [] => []
  | 0, cs => cs
  | fuel + 1, c :: cs =>
      if pat.isPrefixOf (c :: cs) then
        rep ++ replaceAllGo pat rep fuel ((c :: cs).drop pat.length)
      else c :: replaceAllGo pat rep fuel cs

/-- Model of `String.prototype.replace` with `new RegExp(pat, 'g')` for a
pattern free of regex metacharacters: global, non-overlapping, left-to-right
literal replacement. -/
def replaceAll (s pat rep : String) : String :=
  if pat.data = [] then s
  else ⟨replaceAllGo pat.data rep.data s.data.length s.data⟩

/-- The mask used by `sanitizeErrorMessage` for sensitive strings longer than
4 characters: `substring(0, 2) + '***' + substring(length - 2)`. -/
def maskSensitive (sensitive : String) : String :=
  (⟨sensitive.data.take 2⟩ : String) ++ "***" ++
    ⟨sensitive.data.drop (sensitive.data.length - 2)⟩

/-- Function `sanitizeErrorMessage(message, sensitiveData)` from the crypto helpers:
each non-blank sensitive string is globally replaced, by `'***'` when at most
4 characters long, otherwise by its first two characters, `'***'`, and its
last two characters. -/
def sanitizeErrorMessage (message : String) (sensitiveData : List String) : String :=
  sensitiveData.foldl
    (fun sanitized sensitive =>
      if sensitive ≠ "" ∧ 0 < (jsTrim sensitive).data.length then
        if sensitive.data.length ≤ 4 then replaceAll sanitized sensitive "***"
        else replaceAll sanitized sensitive (maskSensitive sensitive)
      else sanitized)
    message

/-! ## Signature-message construction (`createSignatureMessage`) -/

/-- Argument record of `createSignatureMessage`.  The `body` parameter is
typed `string` with default `''` in the source, so the
`typeof body === 'string'` ternary always passes the body through
unchanged. -/
structure SignatureMessageArgs where
  apiKey : String
  timestamp : ℤ
  path : String
  method : String
  body : String := ""
deriving DecidableEq, Repr

/-- Function `createSignatureMessage`: template-literal concatenation
`apiKey ++ timestamp ++ normalizedPath ++ normalizedMethod ++ normalizedBody`,
where the path gains a leading `/` if missing and the method is
uppercased. -/
def createSignatureMessage (a : SignatureMessageArgs) : String :=
  let normalizedPath := if strStartsWith a.path "/" then a.path else "/" ++ a.path
  let normalizedMethod := strToUpper a.method
  let normalizedBody := a.body
  a.apiKey ++ toString a.timestamp ++ normalizedPath ++ normalizedMethod ++ normalizedBody

/-- The spec's `buildSignaturePayload`, written from the words of the spec
(§4.1): concatenate, in order and with no separators, the API key, the
decimal timestamp, the path prefixed with `/` if missing, the HTTP method
uppercased, and the raw body. -/
def buildSignaturePayloadSpec (apiKey : String) (timestampSeconds : ℤ)
    (path method body : String) : String :=
  apiKey ++ toString timestampSeconds ++
    (if strStartsWith path "/" then path else "/" ++ path) ++ strToUpper method ++ body

/-! ## Base64 decoding and Ed25519 key import -/

/-- The cleanup `base64.replace(/\s/g, '')`. -/
def stripJsWhitespace (s : String) : String :=
  ⟨s.data.filter fun c => ¬ isJsWhitespaceChar c⟩

/-- Index of a character in the base64 alphabet. -/
def b64Index (c : Char) : Option ℕ :=
  if 'A' ≤ c ∧ c ≤ 'Z' then some (c.toNat - 65)
  else if 'a' ≤ c ∧ c ≤ 'z' then some (c.toNat - 97 + 26)
  else if '0' ≤ c ∧ c ≤ '9' then some (c.toNat - 48 + 52)
  else if c = '+' then some 62
  else if c = '/' then some 63
  else none

/-- The source regex `^[A-Za-z0-9+/]*={0,2}$`: alphabet characters followed
by at most two `=`. -/
def base64FormatOk (cs : List Char) : Bool :=
  let r := cs.reverse
  (r.takeWhile fun c => c = '=').length ≤ 2 &&
    (r.dropWhile fun c => c = '=').all fun c => (b64Index c).isSome

/-- Step 2 of forgiving-base64 decoding: when the length is a multiple of 4,
drop one or two trailing `=`. -/
def dropB64Padding (cs : List Char) : List Char :=
  if cs.length % 4 = 0 then
    let r := cs.reverse
    if r.take 2 = ['=', '='] then (r.drop 2).reverse
    else if r.take 1 = ['='] then (r.drop 1).reverse
    else cs
  else cs

/-- Pack a list of 6-bit values into bytes, most significant bits first,
discarding up to 6 leftover bits (forgiving-base64 bit assembly). -/
def b64Assemble : List ℕ → ℕ → ℕ → List ℕ
  | [], _, _ => []
  | v :: rest, acc, nbits =>
      let acc' := acc * 64 + v
      let nbits' := nbits + 6
      if 8 ≤ nbits' then
        acc' / 2 ^ (nbits' - 8) :: b64Assemble rest (acc' % 2 ^ (nbits' - 8)) (nbits' - 8)
      else b64Assemble rest acc' nbits'

/-- Model of `globalThis.atob`, as WHATWG forgiving-base64 decoding: strip ASCII
whitespace, strip `=` padding when the length is a multiple of 4, fail when
the remaining length is `1 (mod 4)` or a character is outside the alphabet,
otherwise assemble the 6-bit values into bytes. -/
def atobJs (s : String) : Option (List ℕ) :=
  let data := s.data.filter fun c => ¬ isJsWhitespaceChar c
  let data := dropB64Padding data
  if data.length % 4 = 1 then none
  else (data.mapM b64Index).map fun vs => b64Assemble vs 0 0

/-- Function `base64ToUint8Array`: strip whitespace, validate with the format regex
(throwing `SignatureError('Failed to decode base64 string: Invalid base64
format')`), then decode with `atob`.  An `atob` exception is wrapped the same
way around the platform's message, whose exact text is host-defined; the
placeholder used here is never relied upon by any theorem. -/
def base64ToUint8Array (base64 : String) : Except String (List ℕ) :=
  let cleanBase64 := stripJsWhitespace base64
  if ¬ base64FormatOk cleanBase64.data then
    Except.error "Failed to decode base64 string: Invalid base64 format"
  else
    match atobJs cleanBase64 with
    | some bytes => Except.ok bytes
    | none => Except.error "Failed to decode base64 string: InvalidCharacterError"

/-- A thrown `SignatureError`. -/
structure SignatureErrorData where
  message : String
deriving DecidableEq, Repr

/-- The message of the `Error` thrown by `importEd25519PrivateKey` when the
decoded seed is not 32 bytes long:
`Invalid Ed25519 seed length: expected 32 bytes, got ${seed.length}` (written
here as a concatenation of its constant pieces). -/
def ed25519SeedLengthMessage (n : ℕ) : String :=
  "Invalid Ed25519 seed length: " ++ "expected 32 bytes" ++ ", " ++ "got " ++ toString n

/-- Function `importEd25519PrivateKey(base64Seed)`: decode the seed, reject any length
other than 32 bytes, then import the key.  Every failure is wrapped into
`SignatureError('Failed to import Ed25519 private key: ' + message)`.  A
successful `crypto.subtle.importKey` call on a 32-byte seed is modelled as
succeeding and returning an opaque, non-extractable handle (`Unit`). -/
def importEd25519PrivateKey (base64Seed : String) : Except SignatureErrorData Unit :=
  match base64ToUint8Array base64Seed with
  | Except.ok seed =>
      if seed.length ≠ 32 then
        Except.error
          ⟨"Failed to import Ed25519 private key: " ++ ed25519SeedLengthMessage seed.length⟩
      else Except.ok ()
  | Except.error m => Except.error ⟨"Failed to import Ed25519 private key: " ++ m⟩

/-! ## `HttpClient.handleRequestError` -/

/-- The shapes of values caught by `HttpClient.request`'s `catch`:
a `TypeError`, an `Error` named `AbortError`, any other `Error`, or a thrown
non-`Error` value. -/
inductive CaughtError where
  | typeError (msg : String)
  | abortError (msg : String)
  | genericError (msg : String)
  | nonError
deriving DecidableEq, Repr

/-- A `NetworkError` (its optional status code is never set here). -/
structure NetworkErrorData where
  message : String
deriving DecidableEq, Repr

/-- Method `HttpClient.handleRequestError`: a `TypeError` mentioning `fetch` becomes
a fixed connectivity message; an `AbortError` becomes a timeout message; any
other `Error` (including a `TypeError` not mentioning `fetch`) has its
message passed through `sanitizeErrorMessage` with `[this.apiKey]` as the
sensitive data; non-`Error` values become a fixed unknown-error message.
Every branch returns a `NetworkError`. -/
def handleRequestError (timeoutMs : ℚ) (apiKey : String) : CaughtError → NetworkErrorData
  | CaughtError.typeError m =>
      if containsSubstring m "fetch" then
        ⟨"Network request failed - check internet connection"⟩
      else ⟨sanitizeErrorMessage m [apiKey]⟩
  | CaughtError.abortError _ => ⟨"Request timeout after " ++ toString timeoutMs ++ "ms"⟩
  | CaughtError.genericError m => ⟨sanitizeErrorMessage m [apiKey]⟩
  | CaughtError.nonError => ⟨"Unknown network error occurred"⟩

/-! ## Configuration validation (`validateConfig`, `src/src/utils/mod.ts`) -/

/-- Lower-case hexadecimal digit (`[0-9a-f]` after lower-casing, which models
the `/i` regex flag). -/
def isLowerHexDigit (c : Char) : Bool :=
  c.isDigit || ('a' ≤ c ∧ c ≤ 'f')

/-- The UUID shape `[0-9a-f]{8}-[0-9a-f]{4}-[0-9a-f]{4}-[0-9a-f]{4}-[0-9a-f]{12}`
on an already lower-cased character list. -/
def matchesUuidLower (cs : List Char) : Bool :=
  cs.length = 36 &&
    cs.enum.all fun p =>
      if p.1 = 8 ∨ p.1 = 13 ∨ p.1 = 18 ∨ p.1 = 23 then p.2 = '-'
      else isLowerHexDigit p.2

/-- Function `validateApiKey` from the crypto helpers: empty strings are falsy and
rejected; otherwise the key must match the new `rh-api-{uuid}` format or the
bare UUID format, case-insensitively. -/
def validateApiKey (apiKey : String) : Bool :=
  if apiKey = "" then false
  else
    let l := (strToLower apiKey).data
    (l.take 7 = "rh-api-".data && matchesUuidLower (l.drop 7)) || matchesUuidLower l

/-- JavaScript string truthiness for an optional field: falsy when absent or
empty. -/
def strFalsy : Option String → Bool
  | none => true
  | some s => s = ""

/-- The `CryptoClientConfig` record as seen by `validateConfig`; every field may be
absent. -/
structure ClientConfig where
  apiKey : Option String
  secretKey : Option String
  baseUrl : Option String
  timeout : Option ℚ
  rateLimit : Option RateLimitConfig
deriving DecidableEq, Repr

/-- Validation message for a missing API key. -/
def apiKeyRequiredMsg : String :=
  "apiKey is required. Set RH_CRYPTO_API_KEY environment variable or pass in config."

/-- Validation message for a missing secret key. -/
def secretKeyRequiredMsg : String :=
  "secretKey is required. Set RH_CRYPTO_SECRET_KEY environment variable or pass in config."

/-- Validation message for a malformed API key. -/
def apiKeyFormatMsg : String :=
  "apiKey format is invalid. Expected UUID format with optional \"rh-api-\" prefix."

/-- Validation message for a non-base64 secret key. -/
def secretKeyBase64Msg : String := "secretKey must be valid base64 format."

/-- Validation message for a secret key of the wrong decoded length. -/
def secretKey32Msg : String := "secretKey must decode to 32 bytes for Ed25519."

/-- Validation message for a malformed base URL. -/
def baseUrlMsg : String := "baseUrl must be a valid URL."

/-- Validation message for a non-positive timeout. -/
def timeoutMsg : String := "timeout must be a positive number."

/-- Validation message for a non-positive `rateLimit.maxRequests`. -/
def maxRequestsMsg : String := "rateLimit.maxRequests must be a positive number."

/-- Validation message for a non-positive `rateLimit.windowMs`. -/
def windowMsMsg : String := "rateLimit.windowMs must be a positive number."

/-- Validation message for a non-positive `rateLimit.burstCapacity`. -/
def burstCapacityMsg : String := "rateLimit.burstCapacity must be a positive number."

/-- The secret-key block of `validateConfig`: regex check, then `atob`; a
decode of the wrong length adds the 32-byte message, and an `atob` exception
is caught and adds the base64-format message (possibly duplicating the regex
one). -/
def secretKeyErrors (secretKey : String) : List String :=
  let cleanKey := stripJsWhitespace secretKey
  let fmtErrs := if ¬ base64FormatOk cleanKey.data then [secretKeyBase64Msg] else []
  match atobJs cleanKey with
  | some decoded => fmtErrs ++ (if decoded.length ≠ 32 then [secretKey32Msg] else [])
  | none => fmtErrs ++ [secretKeyBase64Msg]

/-- The `errors` array accumulated by `validateConfig`, in push order.
`urlValid` abstracts the host's `new URL(...)` constructor succeeding. -/
def collectConfigErrors (urlValid : String → Bool) (config : ClientConfig) : List String :=
  (if strFalsy config.apiKey then [apiKeyRequiredMsg] else []) ++
  (if strFalsy config.secretKey then [secretKeyRequiredMsg] else []) ++
  (match config.apiKey with
   | some k => if k ≠ "" ∧ ¬ validateApiKey k then [apiKeyFormatMsg] else []
   | none => []) ++
  (match config.secretKey with
   | some k => if k ≠ "" then secretKeyErrors k else []
   | none => []) ++
  (match config.baseUrl with
   | some u => if u ≠ "" ∧ ¬ urlValid u then [baseUrlMsg] else []
   | none => []) ++
  (match config.timeout with
   | some t => if t ≤ 0 then [timeoutMsg] else []
   | none => []) ++
  (match config.rateLimit with
   | some rl =>
       (match rl.maxRequests with
        | some v => if v ≤ 0 then [maxRequestsMsg] else []
        | none => []) ++
       (match rl.windowMs with
        | some v => if v ≤ 0 then [windowMsMsg] else []
        | none => []) ++
       (match rl.burstCapacity with
        | some v => if v ≤ 0 then [burstCapacityMsg] else []
        | none => [])
   | none => [])

/-- Function `validateConfig`: collect every violation, then throw a single
`ConfigurationError` joining them all, or return normally when there are
none. -/
def validateConfig (urlValid : String → Bool) (config : ClientConfig) : Except String Unit :=
  let errors := collectConfigErrors urlValid config
  if 0 < errors.length then
    Except.error ("Configuration validation failed:\n" ++ String.intercalate "\n" errors)
  else Except.ok ()

/-! ## Specification predicates -/

/-- The spec's token-bucket invariant (§3): the token count is a finite
number with `0 <= tokens <= capacity`. -/
def BucketInv (b : TokenBucket) : Prop :=
  ∃ q : ℚ, b.tokens = JsNum.num q ∧ 0 ≤ q ∧ q ≤ b.maxTokens

/-- A well-formed refill rate: either `Infinity` (the `windowMs = 0` edge
case) or a finite non-negative number.  `mkTokenBucket` produces such a rate
for every configuration with a positive (or defaulted) request budget. -/
def GoodRate (b : TokenBucket) : Prop :=
  b.refillRate = JsNum.inf ∨ ∃ r : ℚ, b.refillRate = JsNum.num r ∧ 0 ≤ r

/-! ## Helper lemmas -/

theorem refillTokens_maxTokens (now : ℚ) (b : TokenBucket) :
    (refillTokens now b).maxTokens = b.maxTokens := by
  by_cases hel : 0 < now - b.lastRefill <;> simp [refillTokens, hel]

theorem refillTokens_refillRate (now : ℚ) (b : TokenBucket) :
    (refillTokens now b).refillRate = b.refillRate := by
  by_cases hel : 0 < now - b.lastRefill <;> simp [refillTokens, hel]

/-- Core refill lemma: starting from a finite token count at most the
capacity, the lazy refill yields a finite count that has not decreased and
still does not exceed the capacity. -/
theorem refillTokens_mono (now : ℚ) (b : TokenBucket) (q : ℚ)
    (htok : b.tokens = JsNum.num q) (hq : q ≤ b.maxTokens) (hRate : GoodRate b) :
    ∃ q2 : ℚ, (refillTokens now b).tokens = JsNum.num q2 ∧ q ≤ q2 ∧ q2 ≤ b.maxTokens := by
  by_cases hel : 0 < now - b.lastRefill
  · rcases hRate with hinf | ⟨r, hr, hr0⟩
    · refine ⟨b.maxTokens, ?_, hq, le_refl _⟩
      simp [refillTokens, hel, htok, hinf, JsNum.mul, JsNum.add, JsNum.min]
    · refine ⟨Min.min b.maxTokens (q + (now - b.lastRefill) * r), ?_, ?_, min_le_left _ _⟩
      · simp [refillTokens, hel, htok, hr, JsNum.mul, JsNum.add, JsNum.min]
      · refine le_min hq ?_
        nlinarith [mul_nonneg (le_of_lt hel) hr0]
  · exact ⟨q, by simp [refillTokens, hel, htok], le_refl _, hq⟩

theorem stringDataExt (a b : String) (h : a.data = b.data) : a = b := by
  cases a
  cases b
  exact congrArg String.mk h

theorem bucketInv_refillTokens (now : ℚ) (b : TokenBucket)
    (hInv : BucketInv b) (hRate : GoodRate b) : BucketInv (refillTokens now b) := by
  obtain ⟨q, htok, hq0, hqm⟩ := hInv
  obtain ⟨q2, h2, hle, hcap⟩ := refillTokens_mono now b q htok hqm hRate
  exact ⟨q2, h2, le_trans hq0 hle, refillTokens_maxTokens now b ▸ hcap⟩

theorem goodRate_refillTokens (now : ℚ) (b : TokenBucket) (hRate : GoodRate b) :
    GoodRate (refillTokens now b) := by
  unfold GoodRate at *
  rw [refillTokens_refillRate]
  exact hRate

theorem jsGe_num_num (a bq : ℚ) : JsNum.ge (JsNum.num a) (JsNum.num bq) = true ↔ bq ≤ a := by
  simp [JsNum.ge]

theorem getTimeUntilToken_state (now : ℚ) (b : TokenBucket) :
    (getTimeUntilToken now b).2 = refillTokens now b := by
  by_cases h : JsNum.ge (refillTokens now b).tokens (JsNum.num 1) <;>
    simp [getTimeUntilToken, h]

/-- With an infinite refill rate and at least one elapsed millisecond, the
lazy refill tops the bucket back up to capacity. -/
theorem refillTokens_inf (now : ℚ) (b : TokenBucket) (q : ℚ)
    (hrate : b.refillRate = JsNum.inf) (htok : b.tokens = JsNum.num q)
    (h : b.lastRefill < now) :
    (refillTokens now b).tokens = JsNum.num b.maxTokens := by
  have hel : 0 < now - b.lastRefill := sub_pos.mpr h
  simp [refillTokens, hel, htok, hrate, JsNum.mul, JsNum.add, JsNum.min]

/-- A substring occurrence forces every character of the needle to occur in
the haystack. -/
theorem containsSubstring_char_mem (hay needle : String)
    (h : containsSubstring hay needle = true) : ∀ c ∈ needle.data, c ∈ hay.data := by
  intro c hc
  obtain ⟨i, hi, hp⟩ := List.any_eq_true.mp h
  have hpre : needle.data <+: hay.data.drop i := List.isPrefixOf_iff_prefix.mp hp
  exact List.drop_subset i hay.data (hpre.subset hc)

theorem containsSubstring_append_middle (a b c : String) :
    containsSubstring (a ++ b ++ c) b = true := by
  apply List.any_eq_true.mpr
  refine ⟨a.data.length, ?_, ?_⟩
  · have h : (a ++ b ++ c).data = a.data ++ (b.data ++ c.data) := by
      simp [String.data_append]
    simp [List.mem_range, h]
    omega
  · have h : (a ++ b ++ c).data = a.data ++ (b.data ++ c.data) := by
      simp [String.data_append]
    rw [h, List.drop_left]
    exact List.isPrefixOf_iff_prefix.mpr ⟨c.data, rfl⟩

/-- The number of operation invocations performed by the retry loop is
bounded by the remaining fuel. -/
theorem execGo_calls_le {α : Type} (mr : ℕ) (gate : ℕ → Option RateLimitErrorData)
    (fn : ℕ → Except OpError α) :
    ∀ (fuel attempt calls : ℕ) (lastE : Option OpError),
      (execGo mr gate fn fuel attempt calls lastE).2 ≤ calls + fuel := by
  intro fuel
  induction fuel with
  | zero => intro attempt calls lastE; simp [execGo]
  | succ f ih =>
    intro attempt calls lastE
    cases hg : gate attempt with
    | some rl =>
      by_cases ha : attempt < mr
      · have := ih (attempt + 1) calls (some (OpError.rateLimit (some rl.retryAfter)))
        simp [execGo, hg, ha]
        omega
      · simp [execGo, hg, ha]
    | none =>
      cases hf : fn calls with
      | ok v => simp [execGo, hg, hf]
      | error e =>
        cases hrl : isRateLimitError e with
        | true =>
          by_cases ha : attempt < mr
          · have := ih (attempt + 1) (calls + 1) (some e)
            simp [execGo, hg, hf, hrl, ha]
            omega
          · simp [execGo, hg, hf, hrl, ha]
        | false => simp [execGo, hg, hf, hrl]

/-! ## Claim theorems -/

/-- C6 counterexample: `canConsume` is not mutation-free.  On a bucket with 0
tokens, capacity 10 and refill rate 1/100 tokens per ms, calling
`canConsume(1)` 50 ms after the last refill changes the stored state: the
token count becomes 1/2 and `lastRefill` advances, so the bucket's state is
not identical before and after the call. -/
theorem c6_counterexample :
    ((canConsume 50 1 ⟨JsNum.num 0, 0, 10, JsNum.num (1/100), 1000⟩).2).tokens
        = JsNum.num (1/2) ∧
    (canConsume 50 1 ⟨JsNum.num 0, 0, 10, JsNum.num (1/100), 1000⟩).2
        ≠ (⟨JsNum.num 0, 0, 10, JsNum.num (1/100), 1000⟩ : TokenBucket) := by
  constructor <;>
    norm_num [canConsume, refillTokens, JsNum.mul, JsNum.add, JsNum.min, min_def]

/-- C6 (amended): `canConsume` performs the same admission check as `consume`
and never deducts tokens, but it does apply the lazy refill: the state after
the call is exactly the refilled state (token count and `lastRefill` may
advance), and the returned Boolean is `true` exactly when `consume` at the
same instant would succeed. -/
theorem c6_canConsume_check_without_deduction (now n : ℚ) (b : TokenBucket) :
    (canConsume now n b).2 = refillTokens now b ∧
    ((canConsume now n b).1 = true ↔ (consume now n b).1 = Except.ok ()) := by
  refine ⟨rfl, ?_⟩
  by_cases hge : JsNum.ge (refillTokens now b).tokens (JsNum.num n) <;>
    simp [canConsume, consume, hge]

/-- C10: a denied `consume` deducts nothing — when `consume` fails with a
`RateLimitError`, the bucket state when the call throws is exactly the state
produced by the lazy refill alone. -/
theorem c10_failed_consume_state (now n : ℚ) (b : TokenBucket) (e : RateLimitErrorData)
    (h : (consume now n b).1 = Except.error e) :
    (consume now n b).2 = refillTokens now b ∧
    ((consume now n b).2).tokens = (refillTokens now b).tokens := by
  by_cases hge : JsNum.ge (refillTokens now b).tokens (JsNum.num n)
  · simp [consume, hge] at h
  · exact ⟨by simp [consume, hge], by simp [consume, hge]⟩

/-- C10 witness: concrete denied call (0 tokens available, 1 required). -/
theorem c10_failed_consume_state_witness :
    (consume 0 1 ⟨JsNum.num 0, 0, 10, JsNum.num (1/100), 1000⟩).1
        = Except.error ⟨JsNum.num 0, 1, JsNum.num 100⟩ ∧
    (consume 0 1 ⟨JsNum.num 0, 0, 10, JsNum.num (1/100), 1000⟩).2
        = refillTokens 0 ⟨JsNum.num 0, 0, 10, JsNum.num (1/100), 1000⟩ := by
  have h : (consume 0 1 ⟨JsNum.num 0, 0, 10, JsNum.num (1/100), 1000⟩).1
      = Except.error ⟨JsNum.num 0, 1, JsNum.num 100⟩ := by
    norm_num [consume, refillTokens, JsNum.ge, JsNum.sub, JsNum.add, JsNum.neg,
      JsNum.div, JsNum.ceil]
  exact ⟨h, (c10_failed_consume_state 0 1 ⟨JsNum.num 0, 0, 10, JsNum.num (1/100), 1000⟩
    ⟨JsNum.num 0, 1, JsNum.num 100⟩ h).1⟩

/-- C1 counterexample: the wrapped operation is not invoked at most once.
With the default `maxRetries = 3`, an always-admitting gate, and an operation
that throws a `RateLimitError` on its first invocation (e.g. a normalized
HTTP 429) and succeeds on its second, `execute` catches the operation's
`RateLimitError`, retries, and invokes the operation a second time: the run
returns success with an invocation count of 2. -/
theorem c1_counterexample :
    execute 3 (fun _ => none)
      (fun k => if k = 0 then Except.error (OpError.rateLimit (some (JsNum.num 5)))
                else Except.ok (42 : ℕ))
      = (Except.ok 42, 2) ∧ (1 : ℕ) < 2 :=
  ⟨rfl, by norm_num⟩

/-- C1 (amended): any error thrown by the operation that is not a
`RateLimitError` is propagated immediately, with no retry and no further
invocation of the operation — from any state the retry loop can be in, so in
particular on the first attempt, after any number of gate denials, and after
an earlier `RateLimitError`-triggered retry of the operation itself; however
the catch block does not distinguish gate denials from `RateLimitError`s
thrown by the operation, so an operation throwing `RateLimitError` is
retried and may run up to `maxRetries + 1` times (which also bounds the
total invocation count of any run). -/
theorem c1_retry_wrapper {α : Type} (maxRetries : ℕ)
    (gate : ℕ → Option RateLimitErrorData) (fn : ℕ → Except OpError α) :
    (∀ (fuel attempt calls : ℕ) (lastE : Option OpError) (e : OpError),
      gate attempt = none → fn calls = Except.error e → isRateLimitError e = false →
      execGo maxRetries gate fn (fuel + 1) attempt calls lastE = (Except.error e, calls + 1)) ∧
    (∀ e : OpError, gate 0 = none → fn 0 = Except.error e → isRateLimitError e = false →
      execute maxRetries gate fn = (Except.error e, 1)) ∧
    (∀ (rl : RateLimitErrorData) (e : OpError), gate 0 = some rl → gate 1 = none →
      fn 0 = Except.error e → isRateLimitError e = false → 0 < maxRetries →
      execute maxRetries gate fn = (Except.error e, 1)) ∧
    (∀ (e0 e : OpError), gate 0 = none → gate 1 = none → fn 0 = Except.error e0 →
      isRateLimitError e0 = true → fn 1 = Except.error e → isRateLimitError e = false →
      0 < maxRetries →
      execute maxRetries gate fn = (Except.error e, 2)) ∧
    (execute maxRetries gate fn).2 ≤ maxRetries + 1 := by
  have hgen : ∀ (fuel attempt calls : ℕ) (lastE : Option OpError) (e : OpError),
      gate attempt = none → fn calls = Except.error e → isRateLimitError e = false →
      execGo maxRetries gate fn (fuel + 1) attempt calls lastE = (Except.error e, calls + 1) := by
    intro fuel attempt calls lastE e hg hf hrl
    simp [execGo, hg, hf, hrl]
  refine ⟨hgen, ?_, ?_, ?_, ?_⟩
  · intro e hg hf hrl
    exact hgen maxRetries 0 0 none e hg hf hrl
  · intro rl e hg0 hg1 hf0 hrl hmr
    obtain ⟨m, rfl⟩ : ∃ m, maxRetries = m + 1 := ⟨maxRetries - 1, by omega⟩
    have hstep := hgen m 1 0 (some (OpError.rateLimit (some rl.retryAfter))) e hg1 hf0 hrl
    show execGo (m + 1) gate fn (m + 1 + 1) 0 0 none = _
    simp only [execGo, hg0]
    rw [if_pos (Nat.succ_pos m)]
    exact hstep
  · intro e0 e hg0 hg1 hf0 hrl0 hf1 hrl hmr
    obtain ⟨m, rfl⟩ : ∃ m, maxRetries = m + 1 := ⟨maxRetries - 1, by omega⟩
    have hstep := hgen m 1 1 (some e0) e hg1 hf1 hrl
    show execGo (m + 1) gate fn (m + 1 + 1) 0 0 none = _
    simp only [execGo, hg0, hf0, hrl0, if_true]
    rw [if_pos (Nat.succ_pos m)]
    exact hstep
  · have := execGo_calls_le maxRetries gate fn (maxRetries + 1) 0 0 none
    simpa [execute] using this

/-- C1 witness: a non-rate-limit error from the operation propagates with
exactly one invocation on the first attempt, with exactly one invocation
after a gate denial, and with exactly two invocations after the operation's
own earlier `RateLimitError` was retried; the invocation-count bound holds
at the same inputs. -/
theorem c1_retry_wrapper_witness :
    execute 3 (fun _ => none)
        (fun _ => Except.error (OpError.other "boom") : ℕ → Except OpError ℕ)
      = (Except.error (OpError.other "boom"), 1) ∧
    execute 3 (fun k => if k = 0 then some ⟨JsNum.num 0, 1, JsNum.num 7⟩ else none)
        (fun _ => Except.error (OpError.other "boom") : ℕ → Except OpError ℕ)
      = (Except.error (OpError.other "boom"), 1) ∧
    execute 3 (fun _ => none)
        (fun k => if k = 0 then Except.error (OpError.rateLimit (some (JsNum.num 5)))
                  else Except.error (OpError.other "boom") : ℕ → Except OpError ℕ)
      = (Except.error (OpError.other "boom"), 2) ∧
    (execute 3 (fun _ => none)
        (fun _ => Except.error (OpError.other "boom") : ℕ → Except OpError ℕ)).2 ≤ 4 :=
  ⟨(c1_retry_wrapper 3 (fun _ => none) (fun _ => Except.error (OpError.other "boom"))).2.1
      (OpError.other "boom") rfl rfl rfl,
   (c1_retry_wrapper 3 (fun k => if k = 0 then some ⟨JsNum.num 0, 1, JsNum.num 7⟩ else none)
      (fun _ => Except.error (OpError.other "boom"))).2.2.1
      ⟨JsNum.num 0, 1, JsNum.num 7⟩ (OpError.other "boom") rfl rfl rfl rfl (by norm_num),
   (c1_retry_wrapper 3 (fun _ => none)
      (fun k => if k = 0 then Except.error (OpError.rateLimit (some (JsNum.num 5)))
                else Except.error (OpError.other "boom"))).2.2.2.1
      (OpError.rateLimit (some (JsNum.num 5))) (OpError.other "boom")
      rfl rfl rfl rfl rfl rfl (by norm_num),
   (c1_retry_wrapper 3 (fun _ => none) (fun _ => Except.error (OpError.other "boom"))).2.2.2.2⟩

/-- C2: the signature payload is exactly the separator-free concatenation of
the API key, the decimal timestamp, the path prefixed with `/` when missing,
the uppercased method, and the raw body — `createSignatureMessage` agrees
with the spec's `buildSignaturePayload` on every input, and the concrete
example evaluates to `"k1/aGET"`. -/
theorem c2_signature_payload :
    (∀ a : SignatureMessageArgs,
      createSignatureMessage a =
        buildSignaturePayloadSpec a.apiKey a.timestamp a.path a.method a.body) ∧
    createSignatureMessage ⟨"k", 1, "a", "get", ""⟩ = "k1/aGET" :=
  ⟨fun _ => rfl, by decide⟩

/-- C3: on any bucket state satisfying the invariant `0 <= tokens <=
capacity` with a well-formed refill rate, every public operation — the lazy
refill itself, `consume` (with a non-negative token request), `canConsume`,
`getTokenCount`, `getTimeUntilToken`, `reset`, and `getStatus` — preserves
the invariant, and the lazy refill never decreases the token count and never
advances it past the capacity. -/
theorem c3_bucket_invariant (b : TokenBucket) (now n : ℚ)
    (hInv : BucketInv b) (hRate : GoodRate b) (hn : 0 ≤ n) :
    BucketInv (refillTokens now b) ∧
    (∃ q q2 : ℚ, b.tokens = JsNum.num q ∧ (refillTokens now b).tokens = JsNum.num q2 ∧
      q ≤ q2 ∧ q2 ≤ b.maxTokens) ∧
    BucketInv (consume now n b).2 ∧
    BucketInv (canConsume now n b).2 ∧
    BucketInv (getTokenCount now b).2 ∧
    BucketInv (getTimeUntilToken now b).2 ∧
    BucketInv (reset now b) ∧
    BucketInv (getStatus now b).2 := by
  obtain ⟨q, htok, hq0, hqm⟩ := hInv
  obtain ⟨q2, h2, hle, hcap⟩ := refillTokens_mono now b q htok hqm hRate
  have hmax := refillTokens_maxTokens now b
  have hInvR : BucketInv (refillTokens now b) := ⟨q2, h2, le_trans hq0 hle, hmax ▸ hcap⟩
  refine ⟨hInvR, ⟨q, q2, htok, h2, hle, hcap⟩, ?_, ?_, ?_, ?_, ?_, ?_⟩
  · by_cases hge : JsNum.ge (refillTokens now b).tokens (JsNum.num n)
    · have hge2 : JsNum.ge (JsNum.num q2) (JsNum.num n) = true := h2 ▸ hge
      have hn2 : n ≤ q2 := (jsGe_num_num q2 n).mp hge2
      refine ⟨q2 - n, ?_, by linarith, ?_⟩
      · simp [consume, h2, hge2, JsNum.sub, JsNum.add, JsNum.neg]
        ring_nf
      · have hm2 : ((consume now n b).2).maxTokens = b.maxTokens := by
          simp [consume, h2, hge2, hmax]
        rw [hm2]
        linarith
    · have heq : (consume now n b).2 = refillTokens now b := by simp [consume, hge]
      rw [heq]
      exact hInvR
  · simpa [canConsume] using hInvR
  · simpa [getTokenCount] using hInvR
  · rw [getTimeUntilToken_state]
    exact hInvR
  · exact ⟨b.maxTokens, rfl, le_trans hq0 hqm, le_refl _⟩
  · show BucketInv (getTimeUntilToken now (refillTokens now b)).2
    rw [getTimeUntilToken_state]
    exact bucketInv_refillTokens now _ hInvR (goodRate_refillTokens now b hRate)

/-- C3 witness: the invariant holds across all operations on a concrete
bucket (5 of 10 tokens, rate 1 token/ms, observed 1 ms later). -/
theorem c3_bucket_invariant_witness :
    BucketInv (refillTokens 1 ⟨JsNum.num 5, 0, 10, JsNum.num 1, 1000⟩) ∧
    (∃ q q2 : ℚ,
      (⟨JsNum.num 5, 0, 10, JsNum.num 1, 1000⟩ : TokenBucket).tokens = JsNum.num q ∧
      (refillTokens 1 ⟨JsNum.num 5, 0, 10, JsNum.num 1, 1000⟩).tokens = JsNum.num q2 ∧
      q ≤ q2 ∧ q2 ≤ (10 : ℚ)) ∧
    BucketInv (consume 1 1 ⟨JsNum.num 5, 0, 10, JsNum.num 1, 1000⟩).2 ∧
    BucketInv (canConsume 1 1 ⟨JsNum.num 5, 0, 10, JsNum.num 1, 1000⟩).2 ∧
    BucketInv (getTokenCount 1 ⟨JsNum.num 5, 0, 10, JsNum.num 1, 1000⟩).2 ∧
    BucketInv (getTimeUntilToken 1 ⟨JsNum.num 5, 0, 10, JsNum.num 1, 1000⟩).2 ∧
    BucketInv (reset 1 ⟨JsNum.num 5, 0, 10, JsNum.num 1, 1000⟩) ∧
    BucketInv (getStatus 1 ⟨JsNum.num 5, 0, 10, JsNum.num 1, 1000⟩).2 :=
  c3_bucket_invariant ⟨JsNum.num 5, 0, 10, JsNum.num 1, 1000⟩ 1 1
    ⟨5, rfl, by norm_num, by norm_num⟩ (Or.inr ⟨1, rfl, by norm_num⟩) (by norm_num)

/-- C4: `consume` refills first; with `q2` the refilled token count, a
request of `n ≤ q2` tokens deducts `n` and returns without error, and any
larger request fails with a `RateLimitError` whose `retryAfter` is
`ceil((n - q2) / refillRate)`; in the spec's concrete scenario (capacity 10,
rate 10/1000 tokens per ms) consuming 10 tokens and then immediately 1 more
fails with `retryAfter = 100`. -/
theorem c4_consume_spec :
    (∀ (b : TokenBucket) (now n : ℚ), BucketInv b → GoodRate b →
      ∃ q2 : ℚ, (refillTokens now b).tokens = JsNum.num q2 ∧
        (if n ≤ q2 then
          consume now n b =
            (Except.ok (), { refillTokens now b with tokens := JsNum.num (q2 - n) })
         else
          consume now n b =
            (Except.error ⟨JsNum.num q2, n,
               JsNum.ceil (JsNum.div (JsNum.num (n - q2)) b.refillRate)⟩,
             refillTokens now b))) ∧
    (∀ t0 : ℚ,
      (consume t0 10 (mkTokenBucket ⟨some 10, some 1000, none⟩ t0)).1 = Except.ok () ∧
      (consume t0 1 (consume t0 10 (mkTokenBucket ⟨some 10, some 1000, none⟩ t0)).2).1
        = Except.error ⟨JsNum.num 0, 1, JsNum.num 100⟩) := by
  constructor
  · intro b now n hInv hRate
    obtain ⟨q, htok, hq0, hqm⟩ := hInv
    obtain ⟨q2, h2, hle, hcap⟩ := refillTokens_mono now b q htok hqm hRate
    refine ⟨q2, h2, ?_⟩
    by_cases hn2 : n ≤ q2
    · rw [if_pos hn2]
      have hge2 : JsNum.ge (JsNum.num q2) (JsNum.num n) = true := (jsGe_num_num q2 n).mpr hn2
      simp [consume, h2, hge2, JsNum.sub, JsNum.add, JsNum.neg]
      ring_nf
    · rw [if_neg hn2]
      have hge2 : JsNum.ge (JsNum.num q2) (JsNum.num n) = false := by
        simp [JsNum.ge, hn2]
      simp [consume, h2, hge2, JsNum.sub, JsNum.add, JsNum.neg,
        refillTokens_refillRate]
      ring_nf
  · intro t0
    constructor
    · norm_num [mkTokenBucket, consume, refillTokens, JsNum.ge, JsNum.sub, JsNum.add,
        JsNum.neg, JsNum.div, JsNum.ceil, JsNum.mul, JsNum.min]
    · norm_num [mkTokenBucket, consume, refillTokens, JsNum.ge, JsNum.sub, JsNum.add,
        JsNum.neg, JsNum.div, JsNum.ceil, JsNum.mul, JsNum.min]

/-- C4 witness: the characterization applied to a concrete bucket, and the
spec's capacity-10 scenario at time 0. -/
theorem c4_consume_spec_witness :
    (∃ q2 : ℚ,
      (refillTokens 1 ⟨JsNum.num 5, 0, 10, JsNum.num 1, 1000⟩).tokens = JsNum.num q2 ∧
      (if (1 : ℚ) ≤ q2 then
        consume 1 1 ⟨JsNum.num 5, 0, 10, JsNum.num 1, 1000⟩ =
          (Except.ok (),
            { refillTokens 1 ⟨JsNum.num 5, 0, 10, JsNum.num 1, 1000⟩ with
                tokens := JsNum.num (q2 - 1) })
       else
        consume 1 1 ⟨JsNum.num 5, 0, 10, JsNum.num 1, 1000⟩ =
          (Except.error ⟨JsNum.num q2, 1,
             JsNum.ceil (JsNum.div (JsNum.num (1 - q2)) (JsNum.num 1))⟩,
           refillTokens 1 ⟨JsNum.num 5, 0, 10, JsNum.num 1, 1000⟩))) ∧
    ((consume 0 10 (mkTokenBucket ⟨some 10, some 1000, none⟩ 0)).1 = Except.ok () ∧
      (consume 0 1 (consume 0 10 (mkTokenBucket ⟨some 10, some 1000, none⟩ 0)).2).1
        = Except.error ⟨JsNum.num 0, 1, JsNum.num 100⟩) :=
  ⟨c4_consume_spec.1 ⟨JsNum.num 5, 0, 10, JsNum.num 1, 1000⟩ 1 1
      ⟨5, rfl, by norm_num, by norm_num⟩ (Or.inr ⟨1, rfl, by norm_num⟩),
    c4_consume_spec.2 0⟩

/-- C5 counterexample: the seed `"32"` is valid base64, decodes to 1 byte
(so key import fails with the expected Signature-kind error naming the
lengths), yet the error message does contain the seed string itself — `"32"`
occurs inside `"expected 32 bytes"`.  The claim's "never contains the seed
value" is therefore false as stated. -/
theorem c5_counterexample :
    base64ToUint8Array "32" = Except.ok [223] ∧
    ([223] : List ℕ).length ≠ 32 ∧
    importEd25519PrivateKey "32" = Except.error
      ⟨"Failed to import Ed25519 private key: " ++ ed25519SeedLengthMessage 1⟩ ∧
    containsSubstring
      ("Failed to import Ed25519 private key: " ++ ed25519SeedLengthMessage 1) "32" = true :=
  ⟨rfl, by decide, rfl, by decide⟩

/-- C5 (amended): for every seed that decodes, key import succeeds exactly
when the decoded length is 32 bytes; any other length yields a
Signature-kind error whose message names the expected length (`"expected 32
bytes"`) and the actual length (`"got n"`).  The message is built only from
a fixed template and the decoded byte count, never from the seed, so it
contains the seed string only when the seed coincidentally occurs in that
text (as for seed `"32"`); in particular any seed containing a character
absent from the message never occurs in it. -/
theorem c5_import_key_length (s : String) (bytes : List ℕ)
    (hdec : base64ToUint8Array s = Except.ok bytes) :
    (importEd25519PrivateKey s = Except.ok () ↔ bytes.length = 32) ∧
    (bytes.length ≠ 32 →
      importEd25519PrivateKey s = Except.error
        ⟨"Failed to import Ed25519 private key: " ++ ed25519SeedLengthMessage bytes.length⟩ ∧
      containsSubstring
        ("Failed to import Ed25519 private key: " ++ ed25519SeedLengthMessage bytes.length)
        "expected 32 bytes" = true ∧
      containsSubstring
        ("Failed to import Ed25519 private key: " ++ ed25519SeedLengthMessage bytes.length)
        ("got " ++ toString bytes.length) = true ∧
      ((∃ c ∈ s.data,
          c ∉ ("Failed to import Ed25519 private key: " ++
            ed25519SeedLengthMessage bytes.length).data) →
        containsSubstring
          ("Failed to import Ed25519 private key: " ++ ed25519SeedLengthMessage bytes.length)
          s = false)) := by
  constructor
  · constructor
    · intro hok
      by_contra hne
      simp [importEd25519PrivateKey, hdec, hne] at hok
    · intro h32
      simp [importEd25519PrivateKey, hdec, h32]
  · intro hne
    have hmsg1 : "Failed to import Ed25519 private key: " ++ ed25519SeedLengthMessage bytes.length
        = ("Failed to import Ed25519 private key: " ++ "Invalid Ed25519 seed length: ")
          ++ "expected 32 bytes" ++ (", " ++ "got " ++ toString bytes.length) := by
      apply stringDataExt
      simp [ed25519SeedLengthMessage, String.data_append]
    have hmsg2 : "Failed to import Ed25519 private key: " ++ ed25519SeedLengthMessage bytes.length
        = ("Failed to import Ed25519 private key: " ++ "Invalid Ed25519 seed length: "
            ++ "expected 32 bytes" ++ ", ")
          ++ ("got " ++ toString bytes.length) ++ "" := by
      apply stringDataExt
      simp [ed25519SeedLengthMessage, String.data_append]
    refine ⟨by simp [importEd25519PrivateKey, hdec, hne], ?_, ?_, ?_⟩
    · rw [hmsg1]
      exact containsSubstring_append_middle _ _ _
    · rw [hmsg2]
      exact containsSubstring_append_middle _ _ _
    · intro ⟨c, hcs, hcm⟩
      cases hb : containsSubstring
          ("Failed to import Ed25519 private key: " ++ ed25519SeedLengthMessage bytes.length)
          s with
      | false => rfl
      | true => exact absurd (containsSubstring_char_mem _ _ hb c hcs) hcm

/-- C5 witness: the seed `"zzzz"` decodes to 3 bytes, import fails with the
length-naming Signature error, and — since `'z'` does not occur in the
message — the message does not contain the seed. -/
theorem c5_import_key_length_witness :
    base64ToUint8Array "zzzz" = Except.ok [207, 60, 243] ∧
    importEd25519PrivateKey "zzzz" = Except.error
      ⟨"Failed to import Ed25519 private key: " ++ ed25519SeedLengthMessage 3⟩ ∧
    containsSubstring
      ("Failed to import Ed25519 private key: " ++ ed25519SeedLengthMessage 3) "zzzz" = false := by
  have hdec : base64ToUint8Array "zzzz" = Except.ok [207, 60, 243] := rfl
  have h := (c5_import_key_length "zzzz" [207, 60, 243] hdec).2 (by decide)
  exact ⟨hdec, h.1, h.2.2.2 ⟨'z', by decide, by decide⟩⟩

/-- C7 counterexample: the transport-error sanitization strips only the API
key.  With API key `"ak"` and a transport error whose message contains the
secret key `"SECRETSEED"`, the raised `NetworkError` keeps the message
verbatim, secret key included — contradicting "contains no credential
substring (neither the API key nor the secret key)". -/
theorem c7_counterexample :
    (handleRequestError 10000 "ak"
      (CaughtError.genericError "connection reset by peer while sending SECRETSEED")).message
      = "connection reset by peer while sending SECRETSEED" ∧
    containsSubstring
      (handleRequestError 10000 "ak"
        (CaughtError.genericError "connection reset by peer while sending SECRETSEED")).message
      "SECRETSEED" = true := by
  constructor
  · decide
  · decide

/-- C7 (amended): every transport failure is surfaced as a `NetworkError`,
and for a generic transport error the message is sanitized against the API
key only: it equals `sanitizeErrorMessage(message, [apiKey])`, which masks
occurrences of the (non-blank) API key and leaves everything else — the
secret key included — untouched. -/
theorem c7_network_error_api_key_only (timeoutMs : ℚ) (apiKey m abortMsg : String) :
    handleRequestError timeoutMs apiKey (CaughtError.genericError m) =
      ⟨sanitizeErrorMessage m [apiKey]⟩ ∧
    sanitizeErrorMessage m [apiKey] =
      (if apiKey ≠ "" ∧ 0 < (jsTrim apiKey).data.length then
        (if apiKey.data.length ≤ 4 then replaceAll m apiKey "***"
         else replaceAll m apiKey (maskSensitive apiKey))
       else m) ∧
    handleRequestError timeoutMs apiKey (CaughtError.abortError abortMsg) =
      ⟨"Request timeout after " ++ toString timeoutMs ++ "ms"⟩ ∧
    handleRequestError timeoutMs apiKey CaughtError.nonError =
      ⟨"Unknown network error occurred"⟩ :=
  ⟨rfl, rfl, rfl, rfl⟩

/-- C8: `validateConfig` aggregates every violation into one raised
Configuration error: whenever the API key is missing, the secret key is
missing, and the timeout is non-positive, the collected error list contains
all three messages, and the single raised error joins the whole list. -/
theorem c8_config_validation_aggregates (urlValid : String → Bool) (config : ClientConfig)
    (ha : strFalsy config.apiKey = true) (hs : strFalsy config.secretKey = true)
    (t : ℚ) (ht : config.timeout = some t) (htneg : t ≤ 0) :
    apiKeyRequiredMsg ∈ collectConfigErrors urlValid config ∧
    secretKeyRequiredMsg ∈ collectConfigErrors urlValid config ∧
    timeoutMsg ∈ collectConfigErrors urlValid config ∧
    validateConfig urlValid config =
      Except.error ("Configuration validation failed:\n" ++
        String.intercalate "\n" (collectConfigErrors urlValid config)) := by
  have h1 : apiKeyRequiredMsg ∈ collectConfigErrors urlValid config := by
    simp [collectConfigErrors, ha]
  have h2 : secretKeyRequiredMsg ∈ collectConfigErrors urlValid config := by
    simp [collectConfigErrors, hs]
  have h3 : timeoutMsg ∈ collectConfigErrors urlValid config := by
    simp [collectConfigErrors, ht, htneg]
  have hne : collectConfigErrors urlValid config ≠ [] := by
    intro h0
    rw [h0] at h1
    simp at h1
  have hlen : 0 < (collectConfigErrors urlValid config).length :=
    List.length_pos.mpr hne
  exact ⟨h1, h2, h3, by simp [validateConfig, hlen]⟩

/-- C8 witness: the concrete config with no API key, no secret key and
timeout `-1` reports all three violations in the one raised error. -/
theorem c8_config_validation_aggregates_witness :
    strFalsy (none : Option String) = true ∧
    ((-1 : ℚ) ≤ 0) ∧
    (apiKeyRequiredMsg ∈ collectConfigErrors (fun _ => true) ⟨none, none, none, some (-1), none⟩ ∧
     secretKeyRequiredMsg ∈
       collectConfigErrors (fun _ => true) ⟨none, none, none, some (-1), none⟩ ∧
     timeoutMsg ∈ collectConfigErrors (fun _ => true) ⟨none, none, none, some (-1), none⟩ ∧
     validateConfig (fun _ => true) ⟨none, none, none, some (-1), none⟩ =
       Except.error ("Configuration validation failed:\n" ++
         String.intercalate "\n"
           (collectConfigErrors (fun _ => true) ⟨none, none, none, some (-1), none⟩))) :=
  ⟨rfl, by norm_num,
    c8_config_validation_aggregates (fun _ => true) ⟨none, none, none, some (-1), none⟩
      rfl rfl (-1) rfl (by norm_num)⟩

/-- C9 counterexample: with `windowMs = 0` not every consume call is
admitted.  The refill rate becomes `Infinity` and nothing crashes, but a
bucket built with capacity 10 that has its 10 tokens consumed and is asked
for 1 more within the same millisecond (no elapsed time, so no refill) is
denied with a `RateLimitError` (`retryAfter = 0`). -/
theorem c9_counterexample :
    (mkTokenBucket ⟨some 10, some 0, none⟩ 0).refillRate = JsNum.inf ∧
    (consume 0 10 (mkTokenBucket ⟨some 10, some 0, none⟩ 0)).1 = Except.ok () ∧
    (consume 0 1 (consume 0 10 (mkTokenBucket ⟨some 10, some 0, none⟩ 0)).2).1
      = Except.error ⟨JsNum.num 0, 1, JsNum.num 0⟩ := by
  refine ⟨?_, ?_, ?_⟩ <;>
    norm_num [mkTokenBucket, consume, refillTokens, JsNum.ge, JsNum.sub, JsNum.add,
      JsNum.neg, JsNum.div, JsNum.ceil, JsNum.mul, JsNum.min]

/-- C9 (amended): `windowMs = 0` never divides by zero or crashes — the
refill rate becomes `Infinity` (for any positive or defaulted request
budget).  With an infinite rate, any consume of at most `capacity` tokens
issued at least one millisecond after the last refill is admitted, because
the refill tops the bucket up to capacity; a request above the capacity is
never admitted; and when a consume is denied (as can happen within the same
millisecond, or for an above-capacity request) the error's `retryAfter` is
`0`, so the bucket never blocks a caller for any positive time. -/
theorem c9_windowMs_zero :
    (∀ cfg : RateLimitConfig, cfg.windowMs = some 0 → 0 < cfg.maxRequests.getD 100 →
      ∀ t0 : ℚ, (mkTokenBucket cfg t0).refillRate = JsNum.inf) ∧
    (∀ (b : TokenBucket) (now n : ℚ), b.refillRate = JsNum.inf → BucketInv b →
      b.lastRefill < now → n ≤ b.maxTokens →
      (consume now n b).1 = Except.ok ()) ∧
    (∀ (b : TokenBucket) (now n : ℚ), b.refillRate = JsNum.inf → BucketInv b →
      b.maxTokens < n →
      ∃ e : RateLimitErrorData, (consume now n b).1 = Except.error e) ∧
    (∀ (b : TokenBucket) (now n : ℚ) (e : RateLimitErrorData), b.refillRate = JsNum.inf →
      BucketInv b → (consume now n b).1 = Except.error e → e.retryAfter = JsNum.num 0) := by
  refine ⟨?_, ?_, ?_, ?_⟩
  · intro cfg hw hm t0
    simp [mkTokenBucket, hw, JsNum.div, hm]
  · intro b now n hrate hInv hnow hn
    obtain ⟨q, htok, hq0, hqm⟩ := hInv
    have h2 := refillTokens_inf now b q hrate htok hnow
    have hge : JsNum.ge (refillTokens now b).tokens (JsNum.num n) = true := by
      rw [h2]
      exact (jsGe_num_num b.maxTokens n).mpr hn
    simp [consume, hge]
  · intro b now n hrate hInv hn
    obtain ⟨q, htok, hq0, hqm⟩ := hInv
    obtain ⟨q2, h2, hle, hcap⟩ := refillTokens_mono now b q htok hqm (Or.inl hrate)
    have hn2 : ¬ n ≤ q2 := by intro h; linarith
    have hge2 : JsNum.ge (JsNum.num q2) (JsNum.num n) = false := by
      simp [JsNum.ge, hn2]
    exact ⟨⟨JsNum.num q2, n,
        JsNum.ceil (JsNum.div (JsNum.sub (JsNum.num n) (JsNum.num q2))
          (refillTokens now b).refillRate)⟩,
      by simp [consume, hge2, h2]⟩
  · intro b now n e hrate hInv herr
    obtain ⟨q, htok, hq0, hqm⟩ := hInv
    obtain ⟨q2, h2, hle, hcap⟩ := refillTokens_mono now b q htok hqm (Or.inl hrate)
    by_cases hge : JsNum.ge (refillTokens now b).tokens (JsNum.num n)
    · simp [consume, hge] at herr
    · rw [Bool.not_eq_true] at hge
      have hge2 : JsNum.ge (JsNum.num q2) (JsNum.num n) = false := h2 ▸ hge
      have hcons : (consume now n b).1
          = Except.error ⟨JsNum.num q2, n,
              JsNum.ceil (JsNum.div (JsNum.sub (JsNum.num n) (JsNum.num q2))
                (refillTokens now b).refillRate)⟩ := by
        simp [consume, hge2, h2]
      rw [hcons] at herr
      injection herr with herr2
      rw [← herr2, refillTokens_refillRate, hrate]
      norm_num [JsNum.sub, JsNum.add, JsNum.neg, JsNum.div, JsNum.ceil]

/-- C9 witness: a concrete `windowMs = 0` bucket has rate `Infinity`, admits
a full-capacity consume 1 ms later, denies an above-capacity request of 11
tokens against capacity 10, and a same-instant denial carries
`retryAfter = 0`. -/
theorem c9_windowMs_zero_witness :
    (mkTokenBucket ⟨some 10, some 0, none⟩ 0).refillRate = JsNum.inf ∧
    (consume 1 10 ⟨JsNum.num 0, 0, 10, JsNum.inf, 0⟩).1 = Except.ok () ∧
    (∃ e : RateLimitErrorData,
      (consume 0 11 ⟨JsNum.num 10, 0, 10, JsNum.inf, 0⟩).1 = Except.error e) ∧
    (⟨JsNum.num 0, 1, JsNum.num 0⟩ : RateLimitErrorData).retryAfter = JsNum.num 0 := by
  refine ⟨c9_windowMs_zero.1 ⟨some 10, some 0, none⟩ rfl (by norm_num) 0, ?_, ?_, ?_⟩
  · exact c9_windowMs_zero.2.1 ⟨JsNum.num 0, 0, 10, JsNum.inf, 0⟩ 1 10 rfl
      ⟨0, rfl, by norm_num, by norm_num⟩ (by norm_num) (by norm_num)
  · exact c9_windowMs_zero.2.2.1 ⟨JsNum.num 10, 0, 10, JsNum.inf, 0⟩ 0 11 rfl
      ⟨10, rfl, by norm_num, by norm_num⟩ (by norm_num)
  · have hcons : (consume 0 1 (⟨JsNum.num 0, 0, 10, JsNum.inf, 0⟩ : TokenBucket)).1
        = Except.error ⟨JsNum.num 0, 1, JsNum.num 0⟩ := by
      norm_num [consume, refillTokens, JsNum.ge, JsNum.sub, JsNum.add, JsNum.neg,
        JsNum.div, JsNum.ceil]
    exact c9_windowMs_zero.2.2.2 ⟨JsNum.num 0, 0, 10, JsNum.inf, 0⟩ 0 1
      ⟨JsNum.num 0, 1, JsNum.num 0⟩ rfl ⟨0, rfl, by norm_num, by norm_num⟩ hcons

end RobinhoodClient
